import Mathlib

/-!
# svc-sim: node generator, command listener and control handlers

A shallow embedding of `main.go`.

* Go's `int` is taken as the 64-bit two's-complement integer: values are `Int`,
  and every `+`, `-`, `/` of the source goes through `wrap64`.
* A value returned by `r.Intn(n)` for a constant `n` is a `Fin n`.
* The two goroutines of `addReqs` (listener and generator) are embedded as
  two functions on the variables they share; one call is one atomic step.
* The latency of an observation is a floating-point draw and is left out of
  `Observation`; the labels `node`, `code`, `error` are kept as values.
* An HTTP handler is a computation that performs events (channel sends, the
  reply written to the client, sleeps) and either returns or stops with a
  run-time panic; the events performed before a panic are kept.
-/

namespace SvcSim

/-! ## Go `int` arithmetic -/

/-- Two's-complement reduction of an integer to 64 bits. -/
def wrap64 (x : Int) : Int := (x + 9223372036854775808) % 18446744073709551616 - 9223372036854775808

/-- Values of Go's `int`. -/
def inInt64 (x : Int) : Prop := -9223372036854775808 ≤ x ∧ x ≤ 9223372036854775807

instance (x : Int) : Decidable (inInt64 x) := by unfold inInt64; infer_instance

/-- Go `a + b` on `int`. -/
def goAdd (a b : Int) : Int := wrap64 (a + b)

/-- Go `a - b` on `int`. -/
def goSub (a b : Int) : Int := wrap64 (a - b)

/-- Run-time panics the handlers can raise. -/
inductive Panic where
  | divideByZero
  | indexOutOfRange
  | invalidArgument
  deriving DecidableEq, Repr

/-- Go `a / b` on `int`: truncated quotient, panics on a zero divisor. -/
def goDiv (a b : Int) : Except Panic Int :=
  if b = 0 then .error .divideByZero else .ok (wrap64 (Int.tdiv a b))

/-! ## Constants and the command type -/

/-- The constant `jitter`. -/
def jitter : Nat := 50

/-- The slice `badCodes`. -/
def badCodes : List Int := [400, 401, 403, 404, 500, 501, 503]

/-- The struct `Simulation`, the command sent to a node. -/
structure Simulation where
  NodeID : Int := 0
  ProduceErrors : Bool := false
  Pause : Bool := false
  RPS : Int := 0
  Version : Int := 0
  deriving DecidableEq, Repr

/-! ## `addReqs`: the variables shared by listener and generator -/

/-- The local variables of `addReqs` (the parameter `rps` included). -/
structure Gen where
  rps : Int
  isError : Bool
  code : Int
  rJitter : Int
  produceErrors : Bool
  paused : Bool
  deriving DecidableEq, Repr

/-- The variables of `addReqs` on entry: Go zero values, `produceErrors` and
`paused` false. -/
def Gen.init (rps : Int) : Gen :=
  { rps := rps, isError := false, code := 0, rJitter := 0, produceErrors := false, paused := false }

/-- One iteration of the listener goroutine of `addReqs`, for the received `sim`. -/
def listener (g : Gen) (sim : Simulation) : Gen :=
  let g1 : Gen :=
    if sim.ProduceErrors then { g with produceErrors := sim.ProduceErrors, code := 500 }
    else { g with produceErrors := sim.ProduceErrors }
  let g2 : Gen :=
    if sim.Pause then { g1 with paused := sim.Pause }
    else { g1 with paused := sim.Pause }
  { g2 with rps := sim.RPS }

/-- The listener applied to a sequence of commands, in the order received. -/
def listenAll (g : Gen) (sims : List Simulation) : Gen := sims.foldl listener g

/-- One recorded observation: the labels passed to `reqSummary.WithLabelValues`. -/
structure Observation where
  node : Int
  code : Int
  isError : Bool
  deriving DecidableEq, Repr

/-- The random draws one loop iteration may use: `r.Intn(10000)` and
`r.Intn(len(badCodes))`. -/
structure Draw where
  status : Fin 10000
  position : Fin badCodes.length

/-- The body of the inner `for` loop of `addReqs`: one synthesized observation. -/
def synth (node : Int) (g : Gen) (d : Draw) : Gen × Observation :=
  let g1 : Gen :=
    if !g.produceErrors then
      let a : Gen := { g with isError := false, code := 200 }
      let b : Gen := if d.status.val = 5 then { a with code := badCodes.get d.position } else a
      if b.code ≥ 500 then { b with isError := true } else b
    else { g with isError := true }
  (g1, { node := node, code := g1.code, isError := g1.isError })

/-- The inner loop `for i := 0; i < rps+rJitter && !paused; i++` from index `i`,
with `fuel` bounding the number of iterations. -/
def genLoop (node : Int) (draws : Nat → Draw) : Nat → Int → Gen → Gen × List Observation
  | 0, _, g => (g, [])
  | fuel + 1, i, g =>
    if i < goAdd g.rps g.rJitter ∧ g.paused = false then
      let r := synth node g (draws i.toNat)
      let rest := genLoop node draws fuel (goAdd i 1) r.1
      (rest.1, r.2 :: rest.2)
    else (g, [])

/-- One tick of the generator loop of `addReqs`: the jitter draw `j`, then the
inner loop. The loop makes at most `rps+rJitter` iterations, which is the fuel
(`genLoop_fuel`: more fuel changes nothing). The timer reset and the wait for
the tick boundary have no effect on the variables and are left out. -/
def tick (node : Int) (g : Gen) (j : Fin jitter) (draws : Nat → Draw) : Gen × List Observation :=
  let g1 : Gen := { g with rJitter := (j.val : Int) }
  genLoop node draws (goAdd g1.rps g1.rJitter).toNat 0 g1

/-- States of the variables of `addReqs` reachable from its entry, the
listener receiving a command, the generator drawing a jitter value or
synthesizing one observation, each as one atomic step. -/
inductive Reachable (rps0 : Int) : Gen → Prop where
  | init : Reachable rps0 (Gen.init rps0)
  | command (g : Gen) (sim : Simulation) : Reachable rps0 g → Reachable rps0 (listener g sim)
  | jitterDraw (g : Gen) (j : Fin jitter) :
      Reachable rps0 g → Reachable rps0 { g with rJitter := (j.val : Int) }
  | observe (g : Gen) (node : Int) (d : Draw) :
      Reachable rps0 g → Reachable rps0 (synth node g d).1

/-! ## Control handlers -/

/-- What a handler does that is visible outside it. -/
inductive Event where
  | send (chan : Nat) (sim : Simulation)
  | reply (node : Int)
  | sleep (ns : Int)
  deriving DecidableEq, Repr

/-- A handler computation: the events performed, then a value or the panic
that stopped it. -/
def Exec (α : Type) : Type := List Event × Except Panic α

/-- Sequencing: a panic stops the computation and keeps the events so far. -/
def Exec.bind {α β : Type} (m : Exec α) (f : α → Exec β) : Exec β :=
  match m with
  | (es, .error p) => (es, .error p)
  | (es, .ok a) => ((es ++ (f a).1), (f a).2)

instance : Monad Exec where
  pure a := ([], .ok a)
  bind := Exec.bind

/-- The package-level variables `nodes`, `rps` and `len(chans)`. -/
structure Globals where
  nodes : Int
  rps : Int
  chans : Nat
  deriving DecidableEq, Repr

/-- The index expression `chans[i]`. -/
def chanAt (g : Globals) (i : Int) : Exec Nat :=
  if 0 ≤ i ∧ i < (g.chans : Int) then ([], .ok i.toNat) else ([], .error .indexOutOfRange)

/-- The statement `c <- sim` on channel number `c`; the listener of that
node is always receiving, so the send completes. -/
def send (c : Nat) (sim : Simulation) : Exec Unit := ([Event.send c sim], .ok ())

/-- The reply `fmt.Fprintf(w, ...)` naming `node`. -/
def reply (node : Int) : Exec Unit := ([Event.reply node], .ok ())

/-- The call `time.Sleep(d)`, `d` in nanoseconds. -/
def sleep (ns : Int) : Exec Unit := ([Event.sleep ns], .ok ())

/-- The expression `a / b` inside a handler. -/
def divide (a b : Int) : Exec Int := ([], goDiv a b)

/-- The constant `time.Second`, in nanoseconds. -/
def second : Int := 1000000000

/-- A loop `for i := 0; i < n; i++` with the given body, from index `i`, with
`fuel` bounding the number of iterations. -/
def forLoop (n : Int) (body : Int → Exec Unit) : Nat → Int → Exec Unit
  | 0, _ => pure ()
  | fuel + 1, i =>
    if i < n then do
      body i
      forLoop n body fuel (goAdd i 1)
    else pure ()

/-- The loop `for i := 1; i <= nodes; i++` of `main`, counting the channels
appended to `chans`. -/
def startLoop (nodes : Int) : Nat → Int → Nat → Nat
  | 0, _, c => c
  | fuel + 1, i, c => if i ≤ nodes then startLoop nodes fuel (goAdd i 1) (c + 1) else c

/-- The package-level variables once `main` has run with flags `--nodes`,
`--rps` and `--simulate` as given: without `--simulate` no channel is made.
(With `--simulate` and `nodes = 0` `main` itself panics on `rps / nodes`; the
theorems below are about fleets of at least one node.) -/
def started (simulate : Bool) (nodes rps : Int) : Globals :=
  { nodes := nodes, rps := rps, chans := if simulate then startLoop nodes nodes.toNat 1 0 else 0 }

/-- The query parameter `node` of a request, as `getNode` reads it. -/
inductive NodeQuery where
  | absent
  | malformed
  | value (num : Int)
  deriving DecidableEq, Repr

/-- The call `rn.Intn(n)` returning `pick`. -/
def intn (n pick : Int) : Exec Int :=
  if n ≤ 0 then ([], .error .invalidArgument) else pure pick

/-- The function `getNode`; `pick` is what `rn.Intn(nodes)` returns. -/
def getNode (g : Globals) (q : NodeQuery) (pick : Int) : Exec Int :=
  match q with
  | .absent => intn g.nodes pick
  | .malformed => intn g.nodes pick
  | .value num => pure num

/-- The handler of `/fail-node`. -/
def failNode (g : Globals) (q : NodeQuery) (pick : Int) : Exec Unit := do
  let node ← getNode g q pick
  let c ← chanAt g (goSub node 1)
  let sim : Simulation := { NodeID := node, ProduceErrors := true }
  send c sim
  reply node
  let share ← divide g.rps (goSub g.nodes 1)
  let sim : Simulation := { RPS := share }
  forLoop g.nodes (fun i =>
    if i ≠ goSub node 1 then do
      let c ← chanAt g i
      send c { sim with NodeID := goAdd i 1 }
    else pure ()) g.nodes.toNat 0

/-- The handler of `/remove-node`. -/
def removeNode (g : Globals) (q : NodeQuery) (pick : Int) : Exec Unit := do
  let node ← getNode g q pick
  let c ← chanAt g (goSub node 1)
  let sim : Simulation := { NodeID := node, Pause := true }
  send c sim
  reply node
  let share ← divide g.rps (goSub g.nodes 1)
  let sim : Simulation := { RPS := share }
  forLoop g.nodes (fun i =>
    if i ≠ goSub node 1 then do
      let c ← chanAt g i
      send c { sim with NodeID := goAdd i 1 }
    else pure ()) g.nodes.toNat 0

/-- The handler of `/fix-node`. -/
def fixNode (g : Globals) (q : NodeQuery) (pick : Int) : Exec Unit := do
  let node ← getNode g q pick
  let share ← divide g.rps g.nodes
  let sim : Simulation := { RPS := share, Pause := false, ProduceErrors := false }
  forLoop g.nodes (fun i => do
    let c ← chanAt g i
    send c { sim with NodeID := goAdd i 1 }) g.nodes.toNat 0
  reply node

/-- The handler of `/deploy`. -/
def deploy (g : Globals) : Exec Unit := do
  let deployTime : Int := 60
  let pauseRate ← divide g.rps (goSub g.nodes 1)
  let simPause : Simulation := { RPS := pauseRate, Pause := true }
  let resumeRate ← divide g.rps g.nodes
  let simResume : Simulation := { RPS := resumeRate, Pause := false }
  let takeOverRate ← divide g.rps (goSub g.nodes 1)
  let simTakeOver : Simulation := { RPS := takeOverRate, Pause := false }
  forLoop g.nodes (fun i => do
    forLoop g.nodes (fun j =>
      if j = i then do
        let c ← chanAt g j
        send c simPause
      else do
        let c ← chanAt g j
        send c simTakeOver) g.nodes.toNat 0
    sleep (wrap64 (deployTime * second))
    forLoop g.nodes (fun j => do
      let c ← chanAt g j
      send c simResume) g.nodes.toNat 0
    sleep (wrap64 (15 * second))) g.nodes.toNat 0

/-! ## Lemmas on Go arithmetic -/

theorem wrap64_eq {x : Int} (h : inInt64 x) : wrap64 x = x := by
  unfold inInt64 at h
  unfold wrap64
  omega

theorem goAdd_eq {a b : Int} (h : inInt64 (a + b)) : goAdd a b = a + b := wrap64_eq h

theorem goSub_eq {a b : Int} (h : inInt64 (a - b)) : goSub a b = a - b := wrap64_eq h

/-! ## Lemmas on the generator -/

theorem synth_rps (node : Int) (g : Gen) (d : Draw) : (synth node g d).1.rps = g.rps := by
  unfold synth
  dsimp only
  split_ifs <;> rfl

theorem synth_rJitter (node : Int) (g : Gen) (d : Draw) :
    (synth node g d).1.rJitter = g.rJitter := by
  unfold synth
  dsimp only
  split_ifs <;> rfl

theorem synth_paused (node : Int) (g : Gen) (d : Draw) :
    (synth node g d).1.paused = g.paused := by
  unfold synth
  dsimp only
  split_ifs <;> rfl

theorem synth_produceErrors (node : Int) (g : Gen) (d : Draw) :
    (synth node g d).1.produceErrors = g.produceErrors := by
  unfold synth
  dsimp only
  split_ifs <;> rfl

theorem synth_code_of_produceErrors (node : Int) (g : Gen) (d : Draw)
    (h : g.produceErrors = true) : (synth node g d).1.code = g.code := by
  unfold synth
  simp [h]

/-- A paused generator leaves the inner loop at its first test. -/
theorem genLoop_paused (node : Int) (draws : Nat → Draw) (fuel : Nat) (i : Int) (g : Gen)
    (h : g.paused = true) : genLoop node draws fuel i g = (g, []) := by
  cases fuel with
  | zero => rfl
  | succ fuel => simp [genLoop, h]

/-- With `paused` false the inner loop runs from `i` up to the budget
`rps+rJitter`, one observation per index. -/
theorem genLoop_length (node : Int) (draws : Nat → Draw) (bound : Int) (hb : inInt64 bound) :
    ∀ (fuel : Nat) (i : Int) (g : Gen), g.paused = false → goAdd g.rps g.rJitter = bound →
      0 ≤ i → i + (fuel : Int) = bound →
      (genLoop node draws fuel i g).2.length = fuel := by
  intro fuel
  induction fuel with
  | zero => intro i g _ _ _ _; rfl
  | succ fuel ih =>
    intro i g hp hg hi hsum
    have hlt : i < bound := by omega
    have hstep : goAdd i 1 = i + 1 := by
      apply goAdd_eq
      unfold inInt64 at hb ⊢
      omega
    have hnext := ih (i + 1) (synth node g (draws i.toNat)).1
      (by rw [synth_paused]; exact hp)
      (by rw [synth_rps, synth_rJitter]; exact hg)
      (by omega) (by push_cast at hsum; omega)
    simp only [genLoop, hg, hlt, hp, and_self, if_true, hstep, List.length_cons, hnext]

/-- More fuel than the budget does not change what the inner loop does: the
loop stops at its own test. -/
theorem genLoop_fuel (node : Int) (draws : Nat → Draw) (bound : Int) (hb : inInt64 bound) :
    ∀ (fuel extra : Nat) (i : Int) (g : Gen), goAdd g.rps g.rJitter = bound →
      0 ≤ i → bound ≤ i + (fuel : Int) →
      genLoop node draws (fuel + extra) i g = genLoop node draws fuel i g := by
  intro fuel
  induction fuel with
  | zero =>
    intro extra i g hg hi hsum
    cases extra with
    | zero => rfl
    | succ extra =>
      have hlt : ¬ i < bound := by simp at hsum; omega
      simp [genLoop, hg, hlt]
  | succ fuel ih =>
    intro extra i g hg hi hsum
    have e : fuel + 1 + extra = (fuel + extra) + 1 := by omega
    rw [e]
    by_cases hc : i < bound ∧ g.paused = false
    · have hstep : goAdd i 1 = i + 1 := by
        apply goAdd_eq
        unfold inInt64 at hb ⊢
        omega
      have hnext := ih extra (i + 1) (synth node g (draws i.toNat)).1
        (by rw [synth_rps, synth_rJitter]; exact hg) (by omega) (by push_cast at hsum; omega)
      simp only [genLoop, hg, hc, and_self, if_true, hstep, hnext]
    · simp only [genLoop, hg, hc, if_false]

/-- The number of observations of a tick that is not paused and whose budget
does not overflow. -/
theorem tick_length (node : Int) (g : Gen) (j : Fin jitter) (draws : Nat → Draw)
    (h0 : 0 ≤ g.rps) (hmax : g.rps + (j.val : Int) ≤ 9223372036854775807)
    (hp : g.paused = false) :
    ((tick node g j draws).2.length : Int) = g.rps + (j.val : Int) := by
  have hin : inInt64 (g.rps + (j.val : Int)) := by
    unfold inInt64
    omega
  have hb : goAdd g.rps (j.val : Int) = g.rps + (j.val : Int) := goAdd_eq hin
  unfold tick
  dsimp only
  rw [hb]
  have hlen := genLoop_length node draws (g.rps + (j.val : Int)) hin
    (g.rps + (j.val : Int)).toNat 0 { g with rJitter := (j.val : Int) } hp hb (le_refl 0)
    (by rw [Int.toNat_of_nonneg (by omega)]; omega)
  rw [hlen, Int.toNat_of_nonneg (by omega)]

/-- While `produceErrors` is set, `code` holds 500. -/
theorem reachable_code (rps0 : Int) (g : Gen) (h : Reachable rps0 g) :
    g.produceErrors = true → g.code = 500 := by
  induction h with
  | init => intro h; simp [Gen.init] at h
  | command g sim _ _ =>
    intro h
    cases hpe : sim.ProduceErrors <;> simp [listener, hpe] at h ⊢
  | jitterDraw g j _ ih => exact ih
  | observe g node d _ ih =>
    intro h
    rw [synth_produceErrors] at h
    rw [synth_code_of_produceErrors node g d h]
    exact ih h

/-! ## Lemmas on handlers -/

theorem tdiv_inInt64 {a b : Int} (ha : inInt64 a) (hb : 1 ≤ b) : inInt64 (Int.tdiv a b) := by
  have h1 : (Int.tdiv a b).natAbs ≤ a.natAbs := by
    rw [Int.natAbs_tdiv]
    exact Nat.div_le_self _ _
  have h2 : a = -9223372036854775808 → Int.tdiv a b ≠ 9223372036854775808 := by
    intro e hq
    have hs := Int.tdiv_nonneg (a := -a) (b := b) (by omega) (by omega)
    rw [Int.neg_tdiv] at hs
    omega
  unfold inInt64 at ha ⊢
  omega

theorem goDiv_eq {a b : Int} (ha : inInt64 a) (hb : 1 ≤ b) :
    goDiv a b = .ok (Int.tdiv a b) := by
  unfold goDiv
  rw [if_neg (by omega), wrap64_eq (tdiv_inInt64 ha hb)]

theorem bind_ok {α β : Type} (es : List Event) (a : α) (f : α → Exec β) :
    @Bind.bind Exec _ α β (es, Except.ok a) f = (es ++ (f a).1, (f a).2) := rfl

theorem bind_error {α β : Type} (es : List Event) (p : Panic) (f : α → Exec β) :
    @Bind.bind Exec _ α β (es, Except.error p) f = (es, Except.error p) := rfl

theorem pure_eq {α : Type} (a : α) : (pure a : Exec α) = ([], Except.ok a) := rfl

theorem chanAt_ok (g : Globals) (j : Nat) (h : j < g.chans) :
    chanAt g (j : Int) = ([], Except.ok j) := by
  unfold chanAt
  rw [if_pos ⟨by omega, by omega⟩, Int.toNat_ofNat]

theorem chanAt_error (g : Globals) (i : Int) (h : i < 0 ∨ (g.chans : Int) ≤ i) :
    chanAt g i = ([], Except.error Panic.indexOutOfRange) := by
  unfold chanAt
  rw [if_neg (by omega)]

/-- A loop over `0..n` whose body never panics performs the events of its
iterations in index order and returns. -/
theorem forLoop_events (n : Nat) (hn : inInt64 (n : Int)) (body : Int → Exec Unit)
    (evs : Nat → List Event)
    (hbody : ∀ j : Nat, j < n → body (j : Int) = (evs j, Except.ok ())) :
    ∀ fuel k : Nat, k + fuel = n →
      forLoop (n : Int) body fuel (k : Int) = ((List.range' k fuel).flatMap evs, Except.ok ()) := by
  intro fuel
  induction fuel with
  | zero => intro k _; rfl
  | succ fuel ih =>
    intro k hk
    have hlt : (k : Int) < (n : Int) := by omega
    have hstep : goAdd (k : Int) 1 = ((k + 1 : Nat) : Int) := by
      rw [goAdd_eq]
      · push_cast; rfl
      · unfold inInt64 at hn ⊢
        omega
    rw [forLoop, if_pos hlt, hbody k (by omega), bind_ok, hstep, ih (k + 1) (by omega)]
    simp [List.range'_succ]

/-- The whole loop, started at index 0 with `nodes` as fuel. -/
theorem forLoop_range (n : Nat) (hn : inInt64 (n : Int)) (body : Int → Exec Unit)
    (evs : Nat → List Event)
    (hbody : ∀ j : Nat, j < n → body (j : Int) = (evs j, Except.ok ())) :
    forLoop (n : Int) body (n : Int).toNat 0 = ((List.range n).flatMap evs, Except.ok ()) := by
  have h := forLoop_events n hn body evs hbody n 0 (by omega)
  rw [Int.toNat_ofNat, List.range_eq_range']
  exact h

/-- More fuel than `nodes` does not change what a loop does: it stops at its
own test. -/
theorem forLoop_fuel (n : Int) (hn : inInt64 n) (body : Int → Exec Unit) :
    ∀ (fuel extra : Nat) (i : Int), 0 ≤ i → n ≤ i + (fuel : Int) →
      forLoop n body (fuel + extra) i = forLoop n body fuel i := by
  intro fuel
  induction fuel with
  | zero =>
    intro extra i hi hsum
    cases extra with
    | zero => rfl
    | succ extra =>
      have hlt : ¬ i < n := by simp at hsum; omega
      simp [forLoop, hlt]
  | succ fuel ih =>
    intro extra i hi hsum
    have e : fuel + 1 + extra = (fuel + extra) + 1 := by omega
    rw [e]
    by_cases hc : i < n
    · have hstep : goAdd i 1 = i + 1 := by
        apply goAdd_eq
        unfold inInt64 at hn ⊢
        omega
      have hnext := ih extra (i + 1) (by omega) (by push_cast at hsum; omega)
      simp only [forLoop, hc, if_true, hstep, hnext]
    · simp only [forLoop, hc, if_false]

theorem startLoop_count (n : Int) (hn : n < 9223372036854775807) :
    ∀ (fuel : Nat) (i : Int) (c : Nat), 1 ≤ i → i + (fuel : Int) = n + 1 →
      startLoop n fuel i c = c + fuel := by
  intro fuel
  induction fuel with
  | zero => intro i c _ _; rfl
  | succ fuel ih =>
    intro i c hi hsum
    have hle : i ≤ n := by omega
    have hstep : goAdd i 1 = i + 1 := by
      apply goAdd_eq
      unfold inInt64
      omega
    rw [startLoop, if_pos hle, hstep, ih (i + 1) (c + 1) (by omega) (by push_cast at hsum; omega)]
    omega

/-- After start-up with `--simulate` there is one channel per node. -/
theorem started_eq (n : Nat) (hn : (n : Int) < 9223372036854775807) (R : Int) :
    started true (n : Int) R = { nodes := (n : Int), rps := R, chans := n } := by
  unfold started
  rw [if_pos rfl, startLoop_count (n : Int) hn (n : Int).toNat 1 0 (le_refl 1)
    (by rw [Int.toNat_ofNat]; omega)]
  simp

theorem flatMap_ite_singleton {α β : Type} (p : α → Prop) [DecidablePred p] (f : α → β)
    (l : List α) :
    l.flatMap (fun a => if p a then [f a] else []) = (l.filter (fun a => decide (p a))).map f := by
  induction l with
  | nil => rfl
  | cons a l ih =>
    by_cases h : p a <;> simp [List.flatMap_cons, List.filter_cons, h, ih]

theorem flatMap_singleton_map {α β : Type} (f : α → β) (l : List α) :
    l.flatMap (fun a => [f a]) = l.map f := by
  induction l with
  | nil => rfl
  | cons a l ih => simp [List.flatMap_cons, ih]

theorem bind_nil_ok {α β : Type} (a : α) (f : α → Exec β) :
    @Bind.bind Exec _ α β ([], Except.ok a) f = f a := rfl

theorem sendTo_eq (g : Globals) (j : Nat) (h : j < g.chans) (sim : Simulation) :
    (chanAt g (j : Int) >>= fun c => send c sim) = ([Event.send j sim], Except.ok ()) := by
  rw [chanAt_ok g j h]
  rfl

theorem divide_eq {a b : Int} (ha : inInt64 a) (hb : 1 ≤ b) :
    divide a b = ([], Except.ok (Int.tdiv a b)) := by
  unfold divide
  rw [goDiv_eq ha hb]

/-! ## The claims -/

/-- C4. Deploy rotation: in a started fleet of `n ≥ 2` nodes with base rate `R`,
the `/deploy` handler performs, for `i = 0..n-1` in order, `n` sends
(`j = 0..n-1`) where channel `i`, that of node `i+1`, gets
`RPS = R/(n-1), Pause = true` and every other channel
`RPS = R/(n-1), Pause = false`, a sleep of 60 s, `n` sends of
`RPS = R/n, Pause = false`, and a sleep of 15 s, then returns; `ProduceErrors`
is false in every command and `/` is Go's truncated division. -/
theorem deploy_send_sequence (n : Nat) (R : Int) (hn : 2 ≤ n)
    (hmax : (n : Int) < 9223372036854775807) (hR : inInt64 R) :
    deploy (started true (n : Int) R) =
      ((List.range n).flatMap (fun i =>
          (List.range n).map (fun j => Event.send j
            { NodeID := 0, ProduceErrors := false, Pause := decide (j = i),
              RPS := Int.tdiv R ((n : Int) - 1), Version := 0 })
          ++ [Event.sleep 60000000000]
          ++ (List.range n).map (fun j => Event.send j
            { NodeID := 0, ProduceErrors := false, Pause := false,
              RPS := Int.tdiv R (n : Int), Version := 0 })
          ++ [Event.sleep 15000000000]),
        Except.ok ()) := by
  have hin : inInt64 (n : Int) := by unfold inInt64; omega
  have hsub : goSub (n : Int) 1 = (n : Int) - 1 := goSub_eq (by unfold inInt64; omega)
  rw [started_eq n hmax R]
  unfold deploy
  simp only [hsub, divide_eq hR (show (1 : Int) ≤ (n : Int) - 1 by omega),
    divide_eq hR (show (1 : Int) ≤ (n : Int) by omega), bind_nil_ok]
  apply forLoop_range n hin
  intro i hi
  rw [forLoop_range n hin _ (fun j => [Event.send j
      { NodeID := 0, ProduceErrors := false, Pause := decide (j = i),
        RPS := Int.tdiv R ((n : Int) - 1), Version := 0 }])]
  · rw [forLoop_range n hin _ (fun j => [Event.send j
        { NodeID := 0, ProduceErrors := false, Pause := false,
          RPS := Int.tdiv R (n : Int), Version := 0 }])
        (fun j hj => sendTo_eq _ j hj _)]
    have h60 : wrap64 (60 * second) = 60000000000 := by decide
    have h15 : wrap64 (15 * second) = 15000000000 := by decide
    simp only [sleep, h60, h15, bind_ok, flatMap_singleton_map, List.append_assoc]
  · intro j hj
    by_cases hji : j = i
    · subst hji
      simp only [if_true, decide_True]
      exact sendTo_eq _ j hj _
    · have hne : ¬ ((j : Int) = (i : Int)) := by omega
      simp only [hne, hji, if_false, decide_False]
      exact sendTo_eq _ j hj _

/-- C4, instance of the spec: `n = 3`, `R = 900`, the events of step `i = 0`. -/
theorem deploy_send_sequence_witness :
    (2 ≤ 3 ∧ inInt64 900) ∧
    (deploy (started true ((3 : Nat) : Int) 900)).1.take 8 =
      [Event.send 0 { Pause := true, RPS := 450 },
       Event.send 1 { Pause := false, RPS := 450 },
       Event.send 2 { Pause := false, RPS := 450 },
       Event.sleep 60000000000,
       Event.send 0 { Pause := false, RPS := 300 },
       Event.send 1 { Pause := false, RPS := 300 },
       Event.send 2 { Pause := false, RPS := 300 },
       Event.sleep 15000000000] := by
  refine ⟨⟨by decide, by decide⟩, ?_⟩
  rw [deploy_send_sequence 3 900 (by decide) (by decide) (by decide)]
  decide

/-- C5. Fail-node redistribution: in a started fleet of `n ≥ 2` nodes with base
rate `R`, `/fail-node` for node `k` in `[1, n]` sends to node `k` a command with
`ProduceErrors = true, Pause = false`, replies, then sends to every other node,
in ascending index order and once each, a command with `RPS = R/(n-1)`,
`ProduceErrors = false`, `Pause = false`; node `k` gets no second command. -/
theorem failNode_redistribution (n k : Nat) (R pick : Int) (hn : 2 ≤ n)
    (hmax : (n : Int) < 9223372036854775807) (hR : inInt64 R) (hk1 : 1 ≤ k) (hkn : k ≤ n) :
    failNode (started true (n : Int) R) (NodeQuery.value (k : Int)) pick =
      (Event.send (k - 1)
          { NodeID := (k : Int), ProduceErrors := true, Pause := false, RPS := 0, Version := 0 }
        :: Event.reply (k : Int)
        :: ((List.range n).filter (fun i => decide (i ≠ k - 1))).map (fun i => Event.send i
            { NodeID := (i : Int) + 1, ProduceErrors := false, Pause := false,
              RPS := Int.tdiv R ((n : Int) - 1), Version := 0 }),
        Except.ok ()) := by
  have hin : inInt64 (n : Int) := by unfold inInt64; omega
  have hsub : goSub (n : Int) 1 = (n : Int) - 1 := goSub_eq (by unfold inInt64; omega)
  have hksub : goSub (k : Int) 1 = ((k - 1 : Nat) : Int) := by
    rw [goSub_eq (by unfold inInt64; omega)]
    omega
  rw [started_eq n hmax R]
  unfold failNode getNode
  simp only [pure_eq, bind_nil_ok, hksub, hsub]
  rw [chanAt_ok _ (k - 1) (by show k - 1 < n; omega), bind_nil_ok]
  simp only [send, reply, divide_eq hR (show (1 : Int) ≤ (n : Int) - 1 by omega), bind_ok,
    bind_nil_ok]
  rw [forLoop_range n hin _ (fun i => if i ≠ k - 1 then [Event.send i
      { NodeID := (i : Int) + 1, ProduceErrors := false, Pause := false,
        RPS := Int.tdiv R ((n : Int) - 1), Version := 0 }] else [])]
  · simp only [flatMap_ite_singleton, List.singleton_append, List.cons_append,
      List.nil_append]
  · intro i hi
    have hadd : goAdd (i : Int) 1 = (i : Int) + 1 := goAdd_eq (by unfold inInt64 at hin ⊢; omega)
    by_cases hik : i = k - 1
    · subst hik
      simp only [ne_eq, not_true_eq_false, if_false]
    · have hne : (i : Int) ≠ ((k - 1 : Nat) : Int) := by omega
      simp only [ne_eq, hne, hik, not_false_eq_true, if_true, hadd]
      exact sendTo_eq _ i hi _

/-- C5, instance of the spec: `n = 3`, `R = 900`, `k = 2`. -/
theorem failNode_redistribution_witness :
    (2 ≤ 3 ∧ inInt64 900 ∧ 1 ≤ 2 ∧ 2 ≤ 3) ∧
    failNode (started true ((3 : Nat) : Int) 900) (NodeQuery.value ((2 : Nat) : Int)) 0 =
      ([Event.send 1 { NodeID := 2, ProduceErrors := true },
        Event.reply 2,
        Event.send 0 { NodeID := 1, RPS := 450 },
        Event.send 2 { NodeID := 3, RPS := 450 }], Except.ok ()) := by
  refine ⟨by decide, ?_⟩
  rw [failNode_redistribution 3 2 900 0 (by decide) (by decide) (by decide) (by decide)
    (by decide)]
  rfl

/-- C6, refuted as stated: in a started one-node fleet `/fail-node` for node 1
sends the error command on channel 0 and then stops on the division by
`nodes - 1 = 0`, and `/deploy` stops on that same division: the division is
executed and the failure is a run-time panic. -/
theorem single_node_failNode_sends :
    failNode (started true 1 900) (NodeQuery.value 1) 0 =
      ([Event.send 0 { NodeID := 1, ProduceErrors := true }, Event.reply 1],
        Except.error Panic.divideByZero) ∧
    (failNode (started true 1 900) (NodeQuery.value 1) 0).1 ≠ [] ∧
    deploy (started true 1 900) = ([], Except.error Panic.divideByZero) :=
  ⟨rfl, by decide, rfl⟩

/-- C6, amended. In a started one-node fleet, for every base rate: `/deploy`
executes the division by `nodes - 1 = 0` first and stops with a divide-by-zero
panic, no command sent; `/fail-node` for node 1 sends the error command to
node 1, replies, and stops on the same division before any redistribution;
`/fail-node` for any other node index stops on the channel lookup, no command
sent. -/
theorem single_node_fleet_panics (R k pick : Int) (hk : inInt64 k) (hk1 : k ≠ 1) :
    deploy (started true 1 R) = ([], Except.error Panic.divideByZero) ∧
    failNode (started true 1 R) (NodeQuery.value 1) pick =
      ([Event.send 0 { NodeID := 1, ProduceErrors := true }, Event.reply 1],
        Except.error Panic.divideByZero) ∧
    failNode (started true 1 R) (NodeQuery.value k) pick =
      ([], Except.error Panic.indexOutOfRange) := by
  refine ⟨rfl, rfl, ?_⟩
  have hidx : chanAt (started true 1 R) (goSub k 1) = ([], Except.error Panic.indexOutOfRange) := by
    apply chanAt_error
    have hc : ((started true 1 R).chans : Int) = 1 := rfl
    rw [hc]
    unfold inInt64 at hk
    unfold goSub wrap64
    omega
  unfold failNode getNode
  simp only [pure_eq, bind_nil_ok, hidx, bind_error]

/-- C6, amended, at node index 2 of a one-node fleet. -/
theorem single_node_fleet_panics_witness :
    (inInt64 2 ∧ (2 : Int) ≠ 1) ∧
    failNode (started true 1 900) (NodeQuery.value 2) 0 =
      ([], Except.error Panic.indexOutOfRange) :=
  ⟨by decide, (single_node_fleet_panics 900 2 0 (by decide) (by decide)).2.2⟩

/-- C7, refuted as stated: in a started two-node fleet `/fix-node` for node
index 7 sends the steady-state command to both nodes and returns. -/
theorem fixNode_ignores_index :
    fixNode (started true 2 900) (NodeQuery.value 7) 0 =
      ([Event.send 0 { NodeID := 1, RPS := 450 }, Event.send 1 { NodeID := 2, RPS := 450 },
        Event.reply 7], Except.ok ()) ∧
    (fixNode (started true 2 900) (NodeQuery.value 7) 0).1 ≠ [] :=
  ⟨rfl, by decide⟩

/-- C7, amended. In a started fleet of `n ≥ 1` nodes and for a node index `k`
outside `[1, n]`: `/fail-node` and `/remove-node` stop with an
index-out-of-range panic on the channel lookup, before any send; `/fix-node`
does not look at the index and sends `RPS = R/n, Pause = false,
ProduceErrors = false` to every node, in index order, then replies. -/
theorem invalid_index_behaviour (n : Nat) (R k pick : Int) (hn : 1 ≤ n)
    (hmax : (n : Int) < 9223372036854775807) (hR : inInt64 R) (hk : inInt64 k)
    (hout : k < 1 ∨ (n : Int) < k) :
    failNode (started true (n : Int) R) (NodeQuery.value k) pick =
      ([], Except.error Panic.indexOutOfRange) ∧
    removeNode (started true (n : Int) R) (NodeQuery.value k) pick =
      ([], Except.error Panic.indexOutOfRange) ∧
    fixNode (started true (n : Int) R) (NodeQuery.value k) pick =
      ((List.range n).map (fun i => Event.send i
          { NodeID := (i : Int) + 1, ProduceErrors := false, Pause := false,
            RPS := Int.tdiv R (n : Int), Version := 0 }) ++ [Event.reply k],
        Except.ok ()) := by
  have hin : inInt64 (n : Int) := by unfold inInt64; omega
  rw [started_eq n hmax R]
  have hidx : chanAt { nodes := (n : Int), rps := R, chans := n } (goSub k 1) =
      ([], Except.error Panic.indexOutOfRange) := by
    apply chanAt_error
    show goSub k 1 < 0 ∨ (n : Int) ≤ goSub k 1
    unfold inInt64 at hk
    unfold goSub wrap64
    omega
  refine ⟨?_, ?_, ?_⟩
  · unfold failNode getNode
    simp only [pure_eq, bind_nil_ok, hidx, bind_error]
  · unfold removeNode getNode
    simp only [pure_eq, bind_nil_ok, hidx, bind_error]
  · unfold fixNode getNode
    simp only [pure_eq, bind_nil_ok, divide_eq hR (show (1 : Int) ≤ (n : Int) by omega)]
    rw [forLoop_range n hin _ (fun i => [Event.send i
        { NodeID := (i : Int) + 1, ProduceErrors := false, Pause := false,
          RPS := Int.tdiv R (n : Int), Version := 0 }])]
    · simp only [reply, bind_ok, flatMap_singleton_map]
    · intro i hi
      have hadd : goAdd (i : Int) 1 = (i : Int) + 1 :=
        goAdd_eq (by unfold inInt64 at hin ⊢; omega)
      simp only [hadd]
      exact sendTo_eq _ i hi _

/-- C7, amended, at node index 0 of a two-node fleet. -/
theorem invalid_index_behaviour_witness :
    (1 ≤ 2 ∧ inInt64 900 ∧ inInt64 0 ∧ ((0 : Int) < 1 ∨ ((2 : Nat) : Int) < 0)) ∧
    failNode (started true ((2 : Nat) : Int) 900) (NodeQuery.value 0) 0 =
      ([], Except.error Panic.indexOutOfRange) ∧
    removeNode (started true ((2 : Nat) : Int) 900) (NodeQuery.value 0) 0 =
      ([], Except.error Panic.indexOutOfRange) ∧
    (fixNode (started true ((2 : Nat) : Int) 900) (NodeQuery.value 0) 0).1 =
      [Event.send 0 { NodeID := 1, RPS := 450 }, Event.send 1 { NodeID := 2, RPS := 450 },
        Event.reply 0] := by
  have h := invalid_index_behaviour 2 900 0 0 (by decide) (by decide) (by decide) (by decide)
    (Or.inl (by decide))
  refine ⟨by decide, h.1, h.2.1, ?_⟩
  rw [h.2.2]
  rfl

/-- C1. Full overwrite: after the listener has processed a command `c` the
variables `rps`, `produceErrors`, `paused` are the fields `RPS`,
`ProduceErrors`, `Pause` of `c`, whatever the state before; so after any
sequence of commands they are the fields of the last one. -/
theorem listener_full_overwrite (g : Gen) (c : Simulation) (cs : List Simulation) :
    ((listener g c).rps = c.RPS ∧ (listener g c).produceErrors = c.ProduceErrors ∧
      (listener g c).paused = c.Pause) ∧
    (∀ g2 : Gen, (listener g2 c).rps = (listener g c).rps ∧
      (listener g2 c).produceErrors = (listener g c).produceErrors ∧
      (listener g2 c).paused = (listener g c).paused) ∧
    ((listenAll g (cs ++ [c])).rps = c.RPS ∧
      (listenAll g (cs ++ [c])).produceErrors = c.ProduceErrors ∧
      (listenAll g (cs ++ [c])).paused = c.Pause) := by
  have h : ∀ g1 : Gen, (listener g1 c).rps = c.RPS ∧
      (listener g1 c).produceErrors = c.ProduceErrors ∧ (listener g1 c).paused = c.Pause := by
    intro g1
    unfold listener
    cases c.ProduceErrors <;> cases c.Pause <;> simp
  refine ⟨h g, ?_, ?_⟩
  · intro g2
    obtain ⟨a1, a2, a3⟩ := h g
    obtain ⟨b1, b2, b3⟩ := h g2
    exact ⟨b1.trans a1.symm, b2.trans a2.symm, b3.trans a3.symm⟩
  · unfold listenAll
    rw [List.foldl_append]
    exact h _

/-- C2. A tick that runs with `paused = true` records no observation, for every
rate, jitter draw and value of `produceErrors`. -/
theorem paused_tick_emits_nothing (node : Int) (g : Gen) (j : Fin jitter) (draws : Nat → Draw)
    (h : g.paused = true) : (tick node g j draws).2 = [] := by
  have h2 : ({ g with rJitter := (j.val : Int) } : Gen).paused = true := h
  unfold tick
  dsimp only
  rw [genLoop_paused node draws _ 0 _ h2]

/-- C2 at rate 500, jitter draw 49. -/
theorem paused_tick_emits_nothing_witness :
    (tick 1 { Gen.init 500 with paused := true } ⟨49, by decide⟩
      (fun _ => ⟨⟨5, by decide⟩, ⟨4, by decide⟩⟩)).2 = [] :=
  paused_tick_emits_nothing 1 { Gen.init 500 with paused := true } ⟨49, by decide⟩
    (fun _ => ⟨⟨5, by decide⟩, ⟨4, by decide⟩⟩) rfl

/-- C3. In every state reachable from the entry of `addReqs` by commands,
jitter draws and synthesized observations, taken as atomic steps, an
observation synthesized while `produceErrors = true` has code 500 and
`isError = true`. -/
theorem forced_error_observation (rps0 : Int) (g : Gen) (hr : Reachable rps0 g)
    (hpe : g.produceErrors = true) (node : Int) (d : Draw) :
    (synth node g d).2.code = 500 ∧ (synth node g d).2.isError = true := by
  have hc := reachable_code rps0 g hr hpe
  unfold synth
  simp [hpe, hc]

/-- C3 at the state reached by one observation and then a command with
`ProduceErrors = true`. -/
theorem forced_error_observation_witness :
    Reachable 500 (listener (synth 1 (Gen.init 500) ⟨⟨5, by decide⟩, ⟨1, by decide⟩⟩).1
      { ProduceErrors := true }) ∧
    (synth 1 (listener (synth 1 (Gen.init 500) ⟨⟨5, by decide⟩, ⟨1, by decide⟩⟩).1
        { ProduceErrors := true }) ⟨⟨7, by decide⟩, ⟨0, by decide⟩⟩).2.code = 500 ∧
    (synth 1 (listener (synth 1 (Gen.init 500) ⟨⟨5, by decide⟩, ⟨1, by decide⟩⟩).1
        { ProduceErrors := true }) ⟨⟨7, by decide⟩, ⟨0, by decide⟩⟩).2.isError = true :=
  have hr : Reachable 500 (listener (synth 1 (Gen.init 500) ⟨⟨5, by decide⟩, ⟨1, by decide⟩⟩).1
      { ProduceErrors := true }) :=
    Reachable.command _ { ProduceErrors := true }
      (Reachable.observe _ 1 ⟨⟨5, by decide⟩, ⟨1, by decide⟩⟩ Reachable.init)
  ⟨hr, forced_error_observation 500 _ hr rfl 1 ⟨⟨7, by decide⟩, ⟨0, by decide⟩⟩⟩

/-- C8, refuted as stated: with `rps = 0`, `paused = false` and jitter draw 1
the tick records one observation. -/
theorem rate_zero_tick_emits :
    (tick 1 (Gen.init 0) ⟨1, by decide⟩ (fun _ => ⟨⟨0, by decide⟩, ⟨0, by decide⟩⟩)).2 =
      [{ node := 1, code := 200, isError := false }] ∧
    (tick 1 (Gen.init 0) ⟨1, by decide⟩ (fun _ => ⟨⟨0, by decide⟩, ⟨0, by decide⟩⟩)).2 ≠ [] :=
  ⟨by decide, by decide⟩

/-- C8, amended. A tick with `rps = 0` and `paused = false` records exactly as
many observations as the jitter draw `j`, fewer than 50; it records none
exactly when `j = 0`. -/
theorem rate_zero_tick_count (node : Int) (g : Gen) (j : Fin jitter) (draws : Nat → Draw)
    (h0 : g.rps = 0) (hp : g.paused = false) :
    (tick node g j draws).2.length = j.val ∧ (tick node g j draws).2.length < 50 ∧
    ((tick node g j draws).2 = [] ↔ j.val = 0) := by
  have hj : j.val < 50 := j.isLt
  have h := tick_length node g j draws (by omega) (by omega) hp
  rw [h0] at h
  have hlen : (tick node g j draws).2.length = j.val := by omega
  refine ⟨hlen, by omega, ?_⟩
  rw [← List.length_eq_zero, hlen]

/-- C8, amended, at jitter draw 3. -/
theorem rate_zero_tick_count_witness :
    (tick 1 (Gen.init 0) ⟨3, by decide⟩
      (fun _ => ⟨⟨0, by decide⟩, ⟨0, by decide⟩⟩)).2.length = 3 :=
  (rate_zero_tick_count 1 (Gen.init 0) ⟨3, by decide⟩
    (fun _ => ⟨⟨0, by decide⟩, ⟨0, by decide⟩⟩) rfl rfl).1

/-- C9, refuted as stated: with `rps = 9223372036854775807` and jitter draw 1
the budget `rps + rJitter` wraps to a negative `int` and the tick records no
observation. -/
theorem tick_budget_overflow :
    (0 : Int) ≤ (Gen.init 9223372036854775807).rps ∧
    (tick 1 (Gen.init 9223372036854775807) ⟨1, by decide⟩
      (fun _ => ⟨⟨0, by decide⟩, ⟨0, by decide⟩⟩)).2 = [] :=
  ⟨by decide, by decide⟩

/-- C9, amended. For `rps ≥ 0` and a jitter draw `j` in `[0, 50)` whose sum
`rps + j` does not exceed the largest `int`, a tick with `paused = false`
records exactly `rps + j` observations, so the count lies in `[rps, rps + 50)`. -/
theorem tick_budget (node : Int) (g : Gen) (j : Fin jitter) (draws : Nat → Draw)
    (h0 : 0 ≤ g.rps) (hmax : g.rps + (j.val : Int) ≤ 9223372036854775807)
    (hp : g.paused = false) :
    ((tick node g j draws).2.length : Int) = g.rps + (j.val : Int) ∧
    g.rps ≤ ((tick node g j draws).2.length : Int) ∧
    ((tick node g j draws).2.length : Int) < g.rps + 50 := by
  have hj : j.val < 50 := j.isLt
  have h := tick_length node g j draws h0 hmax hp
  omega

/-- C9, amended, at rate 2 and jitter draw 3. -/
theorem tick_budget_witness :
    ((tick 1 (Gen.init 2) ⟨3, by decide⟩
      (fun _ => ⟨⟨0, by decide⟩, ⟨0, by decide⟩⟩)).2.length : Int) = 2 + 3 :=
  (tick_budget 1 (Gen.init 2) ⟨3, by decide⟩
    (fun _ => ⟨⟨0, by decide⟩, ⟨0, by decide⟩⟩) (by decide) (by decide) rfl).1

/-- C10. With `produceErrors = false`, for every draw `d` in `[0, 10000)` and
position `p` in `[0, 7)`, the synthesized status is `badCodes[p]` when `d = 5`
and 200 otherwise, whatever status the previous observation left; `badCodes[p]`
is one of 400, 401, 403, 404, 500, 501, 503; and `isError` holds exactly when
the status is at least 500, that is for 500, 501 and 503. -/
theorem status_code_selection (node : Int) (g : Gen) (d : Draw)
    (h : g.produceErrors = false) :
    (synth node g d).2.code = (if d.status.val = 5 then badCodes.get d.position else 200) ∧
    badCodes.length = 7 ∧
    badCodes.get d.position ∈ ([400, 401, 403, 404, 500, 501, 503] : List Int) ∧
    ((synth node g d).2.isError = true ↔ (synth node g d).2.code ≥ 500) ∧
    ((synth node g d).2.isError = true ↔
      ((synth node g d).2.code = 500 ∨ (synth node g d).2.code = 501 ∨
        (synth node g d).2.code = 503)) := by
  obtain ⟨s, p⟩ := d
  have hp : badCodes.get p = 400 ∨ badCodes.get p = 401 ∨ badCodes.get p = 403 ∨
      badCodes.get p = 404 ∨ badCodes.get p = 500 ∨ badCodes.get p = 501 ∨
      badCodes.get p = 503 := by
    revert p
    decide
  refine ⟨?_, rfl, ?_, ?_⟩
  · unfold synth
    dsimp only
    generalize badCodes.get p = c at hp ⊢
    by_cases hs : s.val = 5
    · rcases hp with e | e | e | e | e | e | e <;> subst e <;> simp [h, hs]
    · simp [h, hs]
  · rcases hp with e | e | e | e | e | e | e <;> rw [e] <;> decide
  · unfold synth
    dsimp only
    generalize badCodes.get p = c at hp ⊢
    by_cases hs : s.val = 5
    · rcases hp with e | e | e | e | e | e | e <;> subst e <;> simp [h, hs]
    · simp [h, hs]

/-- C10 at draw 5, position 3, after an observation that left code 503. -/
theorem status_code_selection_witness :
    (synth 1 { Gen.init 0 with code := 503, isError := true }
      ⟨⟨5, by decide⟩, ⟨3, by decide⟩⟩).2.code = 404 ∧
    ((synth 1 { Gen.init 0 with code := 503, isError := true }
      ⟨⟨5, by decide⟩, ⟨3, by decide⟩⟩).2.isError = true ↔
      (synth 1 { Gen.init 0 with code := 503, isError := true }
        ⟨⟨5, by decide⟩, ⟨3, by decide⟩⟩).2.code ≥ 500) :=
  have h := status_code_selection 1 { Gen.init 0 with code := 503, isError := true }
    ⟨⟨5, by decide⟩, ⟨3, by decide⟩⟩ rfl
  ⟨h.1, h.2.2.2.1⟩

end SvcSim
